import Mathlib

/-!
Shallow embedding of the signed-distance-field font core of `src/font.rs`
(sway-shell).  Rust `f64` values are idealised as real numbers with exact
arithmetic; `f64::sqrt`, `cbrt`, `acos`, `cos` become `Real.sqrt` and the
corresponding Mathlib functions.  Every definition mirrors the Rust source
line by line; deviations forced by the modelling (NaN sentinels as
`Option`, panics as default values) are noted next to the definition they
concern.
-/

namespace SwayFont

open scoped Classical

/-- `const EPSILON: f64 = 1e-15;` (src/font.rs:49). -/
noncomputable def EPSILON : ℝ := 1e-15

theorem EPSILON_eq : EPSILON = 1 / 10 ^ 15 := by
  norm_num [EPSILON]

/-- Model of `f64::copysign(self, sign)`: the magnitude of `x` with the sign
of `y`.  IEEE negative zero and NaN are outside the real-number model; a
non-negative `y` (including `+0.0`) selects the positive sign. -/
noncomputable def copysign (x y : ℝ) : ℝ := if y < 0 then -|x| else |x|

/-- Model of `f64::signum`: `-1.0` for negatives, `1.0` otherwise
(`+0.0.signum() == 1.0` in Rust; IEEE `-0.0`/NaN are outside the model). -/
noncomputable def signum (x : ℝ) : ℝ := if x < 0 then -1 else 1

/-- Model of `f64::clamp(self, lo, hi)`. -/
noncomputable def clampR (x lo hi : ℝ) : ℝ := min (max x lo) hi

/-- Model of `f64::cbrt`: real cube root, negative-safe like the IEEE one. -/
noncomputable def cbrt (x : ℝ) : ℝ :=
  if x < 0 then -((-x) ^ ((1 : ℝ) / 3)) else x ^ ((1 : ℝ) / 3)

/-- `struct Vector { x: f64, y: f64 }` (src/font.rs:22). -/
structure Vector where
  x : ℝ
  y : ℝ

/-- `impl Add for Vector` (src/font.rs:27): note the source writes
`rhs.x + self.x`. -/
noncomputable instance : Add Vector := ⟨fun s rhs => ⟨rhs.x + s.x, rhs.y + s.y⟩⟩

/-- `impl Sub for Vector` (src/font.rs:75). -/
noncomputable instance : Sub Vector := ⟨fun s rhs => ⟨s.x - rhs.x, s.y - rhs.y⟩⟩

/-- `impl<F: Into<f64>> Mul<F> for Vector` (src/font.rs:51). -/
noncomputable instance : HMul Vector ℝ Vector := ⟨fun s v => ⟨s.x * v, s.y * v⟩⟩

/-- `impl<F: Into<f64>> Div<F> for Vector` (src/font.rs:63). -/
noncomputable instance : HDiv Vector ℝ Vector := ⟨fun s rhs => ⟨s.x / rhs, s.y / rhs⟩⟩

@[simp] theorem Vector.add_def (a b : Vector) : a + b = ⟨b.x + a.x, b.y + a.y⟩ := rfl
@[simp] theorem Vector.sub_def (a b : Vector) : a - b = ⟨a.x - b.x, a.y - b.y⟩ := rfl
@[simp] theorem Vector.hmul_def (a : Vector) (r : ℝ) : a * r = ⟨a.x * r, a.y * r⟩ := rfl
@[simp] theorem Vector.hdiv_def (a : Vector) (r : ℝ) : a / r = ⟨a.x / r, a.y / r⟩ := rfl

namespace Vector

/-- `fn dot` (src/font.rs:87). -/
noncomputable def dot (s rhs : Vector) : ℝ := s.x * rhs.x + s.y * rhs.y

/-- `fn sq_dist` (src/font.rs:91). -/
noncomputable def sq_dist (s rhs : Vector) : ℝ := (rhs.x - s.x) ^ 2 + (rhs.y - s.y) ^ 2

/-- `fn mag` (src/font.rs:95). -/
noncomputable def mag (s : Vector) : ℝ := Real.sqrt (s.x * s.x + s.y * s.y)

/-- `fn norm` (src/font.rs:99): divides by the magnitude with no
zero-magnitude guard. -/
noncomputable def norm (s : Vector) : Vector := ⟨s.x / s.mag, s.y / s.mag⟩

/-- `fn cross` (src/font.rs:107). -/
noncomputable def cross (s s0 : Vector) : ℝ := s.x * s0.y - s.y * s0.x

end Vector

/-- `struct Line(Vector, Vector)` (src/font.rs:248). -/
structure Line where
  p0 : Vector
  p1 : Vector

/-- `struct Bez2(Vector, Vector, Vector)` (src/font.rs:294). -/
structure Bez2 where
  p0 : Vector
  p1 : Vector
  p2 : Vector

/-- `struct Bez3(Vector, Vector, Vector, Vector)` (src/font.rs:533). -/
structure Bez3 where
  p0 : Vector
  p1 : Vector
  p2 : Vector
  p3 : Vector

/-- `enum Segment { LINE(Line), BEZ2(Bez2), BEZ3(Bez3) }` (src/font.rs:122). -/
inductive Segment where
  | LINE : Line → Segment
  | BEZ2 : Bez2 → Segment
  | BEZ3 : Bez3 → Segment

namespace Segment

/-- `fn end` (src/font.rs:153); `end` is a Lean keyword, hence `endP`. -/
noncomputable def endP : Segment → Vector
  | .LINE line => line.p1
  | .BEZ2 bez2 => bez2.p2
  | .BEZ3 bez3 => bez3.p3

/-- `fn start` (src/font.rs:161). -/
noncomputable def start : Segment → Vector
  | .LINE line => line.p0
  | .BEZ2 bez2 => bez2.p0
  | .BEZ3 bez3 => bez3.p0

/-- `fn start_direction` (src/font.rs:169). -/
noncomputable def start_direction : Segment → Vector
  | .LINE line => line.p1 - line.p0
  | .BEZ2 bez2 => bez2.p1 - bez2.p0
  | .BEZ3 bez3 => bez3.p1 - bez3.p0

/-- `fn end_direction` (src/font.rs:177). -/
noncomputable def end_direction : Segment → Vector
  | .LINE line => line.p1 - line.p0
  | .BEZ2 bez2 => bez2.p2 - bez2.p1
  | .BEZ3 bez3 => bez3.p3 - bez3.p2

end Segment

/-- `impl Add<Vector> for Segment` (src/font.rs:202). -/
noncomputable instance : HAdd Segment Vector Segment :=
  ⟨fun s rhs =>
    match s with
    | .LINE line => .LINE ⟨line.p0 + rhs, line.p1 + rhs⟩
    | .BEZ2 bez2 => .BEZ2 ⟨bez2.p0 + rhs, bez2.p1 + rhs, bez2.p2 + rhs⟩
    | .BEZ3 bez3 => .BEZ3 ⟨bez3.p0 + rhs, bez3.p1 + rhs, bez3.p2 + rhs, bez3.p3 + rhs⟩⟩

/-- `impl Div<f64> for Segment` (src/font.rs:128), via the per-variant
`Div<f64>` impls that divide every control point. -/
noncomputable instance : HDiv Segment ℝ Segment :=
  ⟨fun s rhs =>
    match s with
    | .LINE line => .LINE ⟨line.p0 / rhs, line.p1 / rhs⟩
    | .BEZ2 bez2 => .BEZ2 ⟨bez2.p0 / rhs, bez2.p1 / rhs, bez2.p2 / rhs⟩
    | .BEZ3 bez3 => .BEZ3 ⟨bez3.p0 / rhs, bez3.p1 / rhs, bez3.p2 / rhs, bez3.p3 / rhs⟩⟩

/-- `fn solve_quadratic` (src/font.rs:459). -/
noncomputable def solve_quadratic (a b c : ℝ) : Option (List ℝ) :=
  if |a| < EPSILON then
    if |b| < EPSILON then
      if |c| < EPSILON then none else some []
    else some [-c / b]
  else
    let dscr := b * b - 4 * a * c
    if dscr < -EPSILON then
      some []
    else if |dscr| < EPSILON then
      some [-b / (2 * a)]
    else
      let sqrt_dscr := Real.sqrt dscr
      let x1 := (-b - signum b * sqrt_dscr) / (2 * a)
      let x2 := c / (a * x1)
      some [x1, x2]

/-- `fn solve_cubic_normed` (src/font.rs:492). -/
noncomputable def solve_cubic_normed (a b c : ℝ) : Option (List ℝ) :=
  let p := b - a * a / 3
  let q := c + (2 * a * a * a - 9 * a * b) / 27
  let offset := -a / 3
  let d := (q / 2) ^ 2 + (p / 3) ^ 3
  if |d| < EPSILON then
    if |p| < EPSILON then
      some [offset, offset, offset]
    else
      let root_val := cbrt (-q / 2)
      some [2 * root_val + offset, -root_val + offset, -root_val + offset]
  else if d > 0 then
    let sqrt_d := Real.sqrt d
    let u := cbrt (-q / 2 + sqrt_d)
    let v := cbrt (-q / 2 - sqrt_d)
    some [u + v + offset]
  else
    let r := Real.sqrt (-p / 3)
    let phi := Real.arccos (-q / (2 * r ^ 3))
    some [2 * r * Real.cos (phi / 3) + offset,
      2 * r * Real.cos ((phi + 2 * Real.pi) / 3) + offset,
      2 * r * Real.cos ((phi + 4 * Real.pi) / 3) + offset]

/-- `fn solve_cubic` (src/font.rs:452). -/
noncomputable def solve_cubic (a b c d : ℝ) : Option (List ℝ) :=
  if |a| < EPSILON then solve_quadratic b c d
  else solve_cubic_normed (b / a) (c / a) (d / a)

/-- `fn solve_quartic` (src/font.rs:751). -/
noncomputable def solve_quartic (a b c d e : ℝ) : Option (List ℝ) :=
  if |a| < EPSILON then
    solve_cubic b c d e
  else
    let A := b / a
    let B := c / a
    let C := d / a
    let D := e / a
    let p := B - 3 * A * A / 8
    let q := C + A * A * A / 8 - A * B / 2
    let r := D - 3 * A * A * A * A / 256 + A * A * B / 16 - A * C / 4
    match solve_cubic 1 (-p) (-4 * r) (4 * p * r - q * q) with
    | none => none
    | some cubic_roots =>
      -- the source indexes `cubic_roots[0]`, which would panic on an empty
      -- list; `solve_cubic_normed` always returns a non-empty list here
      let y := cubic_roots.headD 0
      let R_sq := y - p
      let R_sq := if R_sq < 0 then 0 else R_sq
      let R := Real.sqrt R_sq
      let S1 := if y * y - 4 * r ≥ 0 then Real.sqrt (y * y - 4 * r) else 0
      let S2 := if y * y - 4 * r < 0 then Real.sqrt (4 * r - y * y) else 0
      match solve_quadratic 1 R ((y + S1 + S2) / 2) with
      | none => none
      | some q1 =>
        match solve_quadratic 1 (-R) ((y - S1 - S2) / 2) with
        | none => none
        | some q2 =>
          some (q1.map (fun root => root - A / 4) ++ q2.map (fun root => root - A / 4))

/-- `fn eval_quintic` (src/font.rs:616). -/
noncomputable def eval_quintic (a b c d e f t : ℝ) : ℝ :=
  t ^ 5 * a + t ^ 4 * b + t ^ 3 * c + t ^ 2 * d + t * e + f

/-- `const BISECTION_MAX_ITER: usize = 100;` (src/font.rs:705). -/
def BISECTION_MAX_ITER : Nat := 100

/-- The `for _ in 0..BISECTION_MAX_ITER` loop of
`find_root_bisection_quintic` (src/font.rs:733), with the iteration count as
explicit fuel; the state is `(start, end, ya, mid)`. -/
noncomputable def bisectLoop (a b c d e f : ℝ) : Nat → ℝ → ℝ → ℝ → ℝ → ℝ
  | 0, _, _, _, mid => mid
  | n + 1, start, stop, ya, _ =>
    let mid := (start + stop) / 2
    let y_mid := eval_quintic a b c d e f mid
    if |y_mid| < EPSILON then mid
    else if ya * y_mid < 0 then bisectLoop a b c d e f n mid stop ya mid
    else bisectLoop a b c d e f n start mid y_mid mid

/-- `fn find_root_bisection_quintic` (src/font.rs:707).  The source returns
`f64::NAN` as a "no bracketed root" sentinel; that sentinel is modelled as
`none`. -/
noncomputable def find_root_bisection_quintic (a b c d e f start stop : ℝ) : Option ℝ :=
  let ya := eval_quintic a b c d e f start
  let yb := eval_quintic a b c d e f stop
  if |ya| < EPSILON then some start
  else if |yb| < EPSILON then some stop
  else if ya * yb > 0 then none
  else some (bisectLoop a b c d e f BISECTION_MAX_ITER start stop ya start)

/-- Insertion step for `sortFloats`. -/
noncomputable def insertFloat (x : ℝ) : List ℝ → List ℝ
  | [] => [x]
  | y :: ys => if x ≤ y then x :: y :: ys else y :: insertFloat x ys

/-- Model of `Vec::sort_floats` (total-order sort on finite doubles). -/
noncomputable def sortFloats : List ℝ → List ℝ
  | [] => []
  | x :: xs => insertFloat x (sortFloats xs)

/-- Model of `roots.dedup_by(|a, b| (*a - *b).abs() < EPSILON)`
(src/font.rs:699): drop consecutive elements within `EPSILON` of the
retained one. -/
noncomputable def dedupEps : List ℝ → List ℝ
  | [] => []
  | [x] => [x]
  | x :: y :: rest =>
    if |x - y| < EPSILON then dedupEps (x :: rest) else x :: dedupEps (y :: rest)
termination_by l => l.length

/-- `fn solve_quintic` (src/font.rs:620). -/
noncomputable def solve_quintic (a b c d e f : ℝ) : Option (List ℝ) :=
  match solve_quartic (a * 5) (b * 4) (c * 3) (d * 2) e with
  | none => none
  | some cp =>
    let crit_points := sortFloats cp
    let m := max (max (max (max (max (max 1 |a|) |b|) |c|) |d|) |e|) |f|
    let bound := 1 + m / |a|
    let search_points := -bound :: (crit_points ++ [bound])
    let roots := (search_points.zip search_points.tail).foldl
      (fun roots w =>
        let ya := eval_quintic a b c d e f w.1
        let yb := eval_quintic a b c d e f w.2
        if |ya| < EPSILON then roots ++ [w.1]
        else if ya * yb < 0 then
          match find_root_bisection_quintic a b c d e f w.1 w.2 with
          | some root => roots ++ [root]
          | none => roots
        else roots) []
    -- `search_points.last().expect(..)`: the list always starts with `-bound`
    let last_y := eval_quintic a b c d e f (search_points.getLastD 0)
    let roots := if |last_y| < EPSILON then roots ++ [search_points.getLastD 0] else roots
    let roots := if roots.length > 1 then dedupEps (sortFloats roots) else roots
    some roots

/-- `fn sdistance` for `Line` (src/font.rs:267). -/
noncomputable def Line.sdistance (l : Line) (p : Vector) : ℝ :=
  if l.p1 = l.p0 then Real.sqrt (l.p1.sq_dist p)
  else
    let t := clampR ((p - l.p0).dot (l.p1 - l.p0) / (l.p1 - l.p0).dot (l.p1 - l.p0)) 0 1
    let p_prime := l.p0 * (1 - t) + l.p1 * t
    copysign (Real.sqrt (p_prime.sq_dist p)) ((l.p1 - l.p0).cross (p - p_prime))

/-- `fn pseudo_sdistance` for `Line` (src/font.rs:280). -/
noncomputable def Line.pseudo_sdistance (l : Line) (p : Vector) : ℝ :=
  if l.p1 = l.p0 then Real.sqrt (l.p1.sq_dist p)
  else
    let t := (p - l.p0).dot (l.p1 - l.p0) / (l.p1 - l.p0).dot (l.p1 - l.p0)
    let p_prime := l.p0 * (1 - t) + l.p1 * t
    copysign (Real.sqrt (p_prime.sq_dist p)) ((l.p1 - l.p0).cross (p - p_prime))

/-- First element of the Rust `Iterator::min_by(|x, y|
x.abs().total_cmp(&y.abs()))` pipeline: the first element of minimal
absolute value, `none` on an empty list. -/
noncomputable def minByAbs : List ℝ → Option ℝ
  | [] => none
  | x :: xs => some (xs.foldl (fun acc y => if |y| < |acc| then y else acc) x)

/-- `fn sdistance` for `Bez2` (src/font.rs:313).  The source unwraps the
`solve_cubic` result (a panic on `None`); the panic path is modelled by
`Option.getD` with junk defaults and is never relied upon by any theorem. -/
noncomputable def Bez2.sdistance (b2 : Bez2) (p : Vector) : ℝ :=
  let p0 := p - b2.p0
  let p1 := b2.p1 - b2.p0
  let p2 := b2.p2 - b2.p1 * (2:ℝ) + b2.p0
  let k0 := p2.dot p2
  let k1 := p1.dot p2 * 3
  let k2 := 2 * p1.dot p1 - p2.dot p0
  let k3 := p1.dot p0 * (-1)
  let roots := (solve_cubic k0 k1 k2 k3).getD []
  let cands := roots.filter (fun r => decide (0 < r) && decide (r < 1)) ++ [0, 1]
  let ds := cands.map (fun r =>
    let p_prime := p2 * r * r + p1 * (2:ℝ) * r + b2.p0
    copysign (Real.sqrt (p_prime.sq_dist p)) ((p2 * (2:ℝ) * r + p1 * (2:ℝ)).cross (p - p_prime)))
  (minByAbs ds).getD 0

/-- `fn pseudo_sdistance` for `Bez2` (src/font.rs:340); same panic-path
modelling as `Bez2.sdistance`. -/
noncomputable def Bez2.pseudo_sdistance (b2 : Bez2) (p : Vector) : ℝ :=
  let p0 := p - b2.p0
  let p1 := b2.p1 - b2.p0
  let p2 := b2.p2 - b2.p1 * (2:ℝ) + b2.p0
  let k0 := p2.dot p2
  let k1 := p1.dot p2 * 3
  let k2 := 2 * p1.dot p1 - p2.dot p0
  let k3 := p1.dot p0 * (-1)
  let roots := (solve_cubic k0 k1 k2 k3).getD []
  let ds := roots.map (fun r =>
    let p_prime := p2 * r * r + p1 * (2:ℝ) * r + b2.p0
    copysign (Real.sqrt (p_prime.sq_dist p)) ((p2 * (2:ℝ) * r + p1 * (2:ℝ)).cross (p - p_prime)))
  (minByAbs ds).getD 0

/-- Model of `std::f64::MAX`, the fold seed of `Bez3::sdistance`. -/
noncomputable def f64_MAX : ℝ := 1.7976931348623157e308

/-- The quintic coefficients `(k0, k1, k2, k3, k4, k5)` computed by both
`Bez3::sdistance` (src/font.rs:552-563) and `Bez3::pseudo_sdistance`
(src/font.rs:585-596), including the source's `p3 = self.3 - self.2 * 3. +
self.1 * 3. + self.0` (note the `+ self.0`). -/
noncomputable def Bez3.kcoeffs (b3 : Bez3) (p : Vector) : ℝ × ℝ × ℝ × ℝ × ℝ × ℝ :=
  let p0 := p - b3.p0
  let p1 := b3.p1 - b3.p0
  let p2 := b3.p2 - b3.p1 * (2:ℝ) + b3.p0
  let p3 := b3.p3 - b3.p2 * (3:ℝ) + b3.p1 * (3:ℝ) + b3.p0
  (p3.dot p3, p2.dot p3 * 5, (p1.dot p3 + p2.dot p2 * 6) * 4,
    p1.dot p2 * 9 - p2.dot p0, p1.dot p1 * 3 - p2.dot p0 * 2, p1.dot p0 * (-1))

/-- The quintic coefficients as the specification document states them
(spec §4.2, "Quintic coefficient derivation"), with
`p3 = P3 - 3 P2 + 3 P1 - P0`.  This definition follows the spec's words and
exists only to be compared against `Bez3.kcoeffs`. -/
noncomputable def specQuinticCoeffs (b3 : Bez3) (p : Vector) : ℝ × ℝ × ℝ × ℝ × ℝ × ℝ :=
  let p0 := p - b3.p0
  let p1 := b3.p1 - b3.p0
  let p2 := b3.p2 - b3.p1 * (2:ℝ) + b3.p0
  let p3 := b3.p3 - b3.p2 * (3:ℝ) + b3.p1 * (3:ℝ) - b3.p0
  (p3.dot p3, p2.dot p3 * 5, (p1.dot p3 + p2.dot p2 * 6) * 4,
    p1.dot p2 * 9 - p2.dot p0, p1.dot p1 * 3 - p2.dot p0 * 2, p1.dot p0 * (-1))

/-- `fn sdistance` for `Bez3` (src/font.rs:552). -/
noncomputable def Bez3.sdistance (b3 : Bez3) (p : Vector) : ℝ :=
  let p0 := p - b3.p0
  let p1 := b3.p1 - b3.p0
  let p2 := b3.p2 - b3.p1 * (2:ℝ) + b3.p0
  let p3 := b3.p3 - b3.p2 * (3:ℝ) + b3.p1 * (3:ℝ) + b3.p0
  let k0 := p3.dot p3
  let k1 := p2.dot p3 * 5
  let k2 := (p1.dot p3 + p2.dot p2 * 6) * 4
  let k3 := p1.dot p2 * 9 - p2.dot p0
  let k4 := p1.dot p1 * 3 - p2.dot p0 * 2
  let k5 := p1.dot p0 * (-1)
  match solve_quintic k0 k1 k2 k3 k4 k5 with
  | none => p.sq_dist b3.p1
  | some rs =>
    let roots := rs ++ [0, 1]
    roots.foldl (fun min_dist r =>
      let r := clampR r 0 1
      let p_prime := p3 * r * r * r + p2 * (3:ℝ) * r * r + p1 * (3:ℝ) * r + b3.p0
      let dist := Real.sqrt (p_prime.sq_dist p)
      if dist < |min_dist| then
        dist * signum ((p3 * (3:ℝ) * r * r + p2 * (6:ℝ) * r + p1 * (3:ℝ)).cross (p - p_prime))
      else min_dist) f64_MAX

/-- `fn pseudo_sdistance` for `Bez3` (src/font.rs:585). -/
noncomputable def Bez3.pseudo_sdistance (b3 : Bez3) (p : Vector) : ℝ :=
  let p0 := p - b3.p0
  let p1 := b3.p1 - b3.p0
  let p2 := b3.p2 - b3.p1 * (2:ℝ) + b3.p0
  let p3 := b3.p3 - b3.p2 * (3:ℝ) + b3.p1 * (3:ℝ) + b3.p0
  let k0 := p3.dot p3
  let k1 := p2.dot p3 * 5
  let k2 := (p1.dot p3 + p2.dot p2 * 6) * 4
  let k3 := p1.dot p2 * 9 - p2.dot p0
  let k4 := p1.dot p1 * 3 - p2.dot p0 * 2
  let k5 := p1.dot p0 * (-1)
  match solve_quintic k0 k1 k2 k3 k4 k5 with
  | none => p.sq_dist b3.p1
  | some rs =>
    rs.foldl (fun min_dist r =>
      let p_prime := p3 * r * r * r + p2 * (3:ℝ) * r * r + p1 * (3:ℝ) * r + b3.p0
      let dist := Real.sqrt (p_prime.sq_dist p)
      if dist < |min_dist| then
        dist * signum ((p3 * (3:ℝ) * r * r + p2 * (6:ℝ) * r + p1 * (3:ℝ)).cross (p - p_prime))
      else min_dist) f64_MAX

/-- `fn sdistance` for `Segment` (src/font.rs:185). -/
noncomputable def Segment.sdistance : Segment → Vector → ℝ
  | .LINE line, p => line.sdistance p
  | .BEZ2 bez2, p => bez2.sdistance p
  | .BEZ3 bez3, p => bez3.sdistance p

/-- `fn pseudo_sdistance` for `Segment` (src/font.rs:193). -/
noncomputable def Segment.pseudo_sdistance : Segment → Vector → ℝ
  | .LINE line, p => line.pseudo_sdistance p
  | .BEZ2 bez2, p => bez2.pseudo_sdistance p
  | .BEZ3 bez3, p => bez3.pseudo_sdistance p

/-- `struct Edge { segments: Vec<Segment> }` (src/font.rs:817). -/
structure Edge where
  segments : List Segment

/-- `struct Contour<E> { edges: Vec<E> }` (src/font.rs:812), instantiated at
`E = Edge` as everywhere in the source. -/
structure Contour where
  edges : List Edge

/-- `struct Shape<E> { contours: Vec<Contour<E>> }` (src/font.rs:871),
instantiated at `E = Edge`. -/
structure Shape where
  contours : List Contour

/-- `Edge::is_continous` (src/font.rs:824). -/
noncomputable def Edge.is_continous (s0 s1 : Segment) : Prop :=
  |s0.end_direction.norm.cross s1.start_direction.norm| < EPSILON ∧
    |s0.end_direction.norm.dot s1.start_direction.norm - 1| < EPSILON

/-- The `min_by` pipeline of `Edge::sdistance` (src/font.rs:831) before the
final `unwrap`. -/
noncomputable def Edge.sdistanceMin (e : Edge) (point : Vector) : Option ℝ :=
  minByAbs (e.segments.map (fun segment => segment.sdistance point))

/-- `Edge::sdistance` (src/font.rs:831).  The source `unwrap`s the minimum
(panicking on an empty edge); the panic path is modelled by `Option.getD 0`
and is shown unreachable on assembler output. -/
noncomputable def Edge.sdistance (e : Edge) (point : Vector) : ℝ :=
  (e.sdistanceMin point).getD 0

/-- One iteration of the edge-grouping loop in
`impl From<Vec<Segment>> for Contour<Edge>` (src/font.rs:840): append the
segment to the last edge while tangent-continuous, else start a new edge.
The inner `None` branch mirrors the source's handling of an empty last edge
(which the loop never creates). -/
noncomputable def contourStep (edges : List (List Segment)) (segment : Segment) :
    List (List Segment) :=
  match edges.getLast? with
  | none => edges ++ [[segment]]
  | some last_edge =>
    match last_edge.getLast? with
    | none => edges.dropLast ++ [last_edge ++ [segment]]
    | some last_segment =>
      if Edge.is_continous last_segment segment then
        edges.dropLast ++ [last_edge ++ [segment]]
      else
        edges ++ [[segment]]

/-- `impl From<Vec<Segment>> for Contour<Edge>` (src/font.rs:840). -/
noncomputable def Contour.fromSegments (value : List Segment) : Contour :=
  { edges := (value.foldl contourStep []).map (fun s => { segments := s }) }

/-- One iteration of the contour-grouping loop in
`impl From<Vec<Segment>> for Shape<Edge>` (src/font.rs:875): append while the
previous end point is within `EPSILON` squared distance of the next start
point, else start a new contour. -/
noncomputable def shapeStep (contours : List (List Segment)) (segment : Segment) :
    List (List Segment) :=
  match contours.getLast? with
  | none => contours ++ [[segment]]
  | some last_contour =>
    match last_contour.getLast? with
    | none => contours.dropLast ++ [last_contour ++ [segment]]
    | some s =>
      if s.endP.sq_dist segment.start < EPSILON then
        contours.dropLast ++ [last_contour ++ [segment]]
      else
        contours ++ [[segment]]

/-- The contour-grouping stage of `impl From<Vec<Segment>> for Shape<Edge>`
(src/font.rs:875), before each group is turned into a `Contour`. -/
noncomputable def shapeGroups (value : List Segment) : List (List Segment) :=
  value.foldl shapeStep []

/-- `impl From<Vec<Segment>> for Shape<Edge>` (src/font.rs:875). -/
noncomputable def Shape.fromSegments (value : List Segment) : Shape :=
  { contours := (shapeGroups value).map Contour.fromSegments }

/-- The segments of a contour: every edge's segments, concatenated in
order. -/
noncomputable def Contour.flattenSegs (c : Contour) : List Segment :=
  (c.edges.map Edge.segments).flatten

/-- The segments of a shape: every contour's every edge's segments,
concatenated in order. -/
noncomputable def Shape.flattenSegs (s : Shape) : List Segment :=
  (s.contours.map Contour.flattenSegs).flatten

/-- The contour-closure property of spec §3: the start point of the first
segment of the first edge is within `EPSILON` (squared distance, as the
assembler itself measures proximity) of the end point of the last segment of
the last edge. -/
noncomputable def Contour.isClosed (c : Contour) : Prop :=
  ∀ e0 ∈ c.edges.head?, ∀ s0 ∈ e0.segments.head?,
    ∀ e1 ∈ c.edges.getLast?, ∀ s1 ∈ e1.segments.getLast?,
      s0.start.sq_dist s1.endP < EPSILON

/-- Closure of a raw segment run: first start within `EPSILON` squared
distance of last end (vacuous for the empty run). -/
noncomputable def closedRun (g : List Segment) : Prop :=
  ∀ s0 ∈ g.head?, ∀ s1 ∈ g.getLast?, s0.start.sq_dist s1.endP < EPSILON

/-- Model of `ab_glyph::Rect` (an external collaborator type): an
axis-aligned box given by its min and max corners, with
`width = max.x - min.x` and `height = max.y - min.y` as in `ab_glyph`. -/
structure Rect where
  min : Vector
  max : Vector

noncomputable def Rect.width (r : Rect) : ℝ := r.max.x - r.min.x

noncomputable def Rect.height (r : Rect) : ℝ := r.max.y - r.min.y

/-- Model of `ab_glyph::OutlineCurve` (external collaborator): the typed
curve primitives the font library hands over, per spec §6. -/
inductive OutlineCurve where
  | line : Vector → Vector → OutlineCurve
  | quad : Vector → Vector → Vector → OutlineCurve
  | cubic : Vector → Vector → Vector → Vector → OutlineCurve

/-- `impl From<OutlineCurve> for Segment` (src/font.rs:230). -/
noncomputable def Segment.fromCurve : OutlineCurve → Segment
  | .line point point1 => .LINE ⟨point, point1⟩
  | .quad point point1 point2 => .BEZ2 ⟨point, point1, point2⟩
  | .cubic point point1 point2 point3 => .BEZ3 ⟨point, point1, point2, point3⟩

/-- Model of `ab_glyph::Outline` (external collaborator): the curve list and
bounding box supplied per glyph. -/
structure Outline where
  bounds : Rect
  curves : List OutlineCurve

/-- `struct ShapeBuilder` (src/font.rs:911). -/
structure ShapeBuilder where
  shape : Shape
  w : ℝ
  outline : Outline

/-- `ShapeBuilder::new` (src/font.rs:918): each outline curve is converted
to a `Segment`, translated by `+ outline.bounds.min` and divided by
`|outline.bounds.height()|`; the resulting list is fed to the assembler.
No segment is filtered out. -/
noncomputable def ShapeBuilder.new (outline : Outline) : ShapeBuilder :=
  let scale := |outline.bounds.height|
  let segments := outline.curves.map
    (fun c => (Segment.fromCurve c + outline.bounds.min) / scale)
  { shape := Shape.fromSegments segments
    w := |outline.bounds.width| / scale
    outline := outline }

/-! ### List helper lemmas for the assembler -/

theorem eq_dropLast_concat {α : Type} {l : List α} {a : α} (h : l.getLast? = some a) :
    l = l.dropLast ++ [a] := by
  induction l using List.reverseRecOn with
  | nil => simp at h
  | append_singleton as b _ =>
    rw [List.getLast?_concat] at h
    cases h
    simp

theorem contourStep_eqNil (gs : List (List Segment)) (s : Segment)
    (h : gs.getLast? = none) : contourStep gs s = gs ++ [[s]] := by
  unfold contourStep
  simp only [h]

theorem contourStep_eqLastNil (gs : List (List Segment)) (s : Segment)
    (last_edge : List Segment) (h1 : gs.getLast? = some last_edge)
    (h2 : last_edge.getLast? = none) :
    contourStep gs s = gs.dropLast ++ [last_edge ++ [s]] := by
  unfold contourStep
  simp only [h1, h2]

theorem contourStep_eqTrue (gs : List (List Segment)) (s : Segment)
    (last_edge : List Segment) (last_segment : Segment)
    (h1 : gs.getLast? = some last_edge) (h2 : last_edge.getLast? = some last_segment)
    (h3 : Edge.is_continous last_segment s) :
    contourStep gs s = gs.dropLast ++ [last_edge ++ [s]] := by
  unfold contourStep
  simp only [h1, h2]
  rw [if_pos h3]

theorem contourStep_eqFalse (gs : List (List Segment)) (s : Segment)
    (last_edge : List Segment) (last_segment : Segment)
    (h1 : gs.getLast? = some last_edge) (h2 : last_edge.getLast? = some last_segment)
    (h3 : ¬Edge.is_continous last_segment s) :
    contourStep gs s = gs ++ [[s]] := by
  unfold contourStep
  simp only [h1, h2]
  rw [if_neg h3]

theorem shapeStep_eqNil (gs : List (List Segment)) (s : Segment)
    (h : gs.getLast? = none) : shapeStep gs s = gs ++ [[s]] := by
  unfold shapeStep
  simp only [h]

theorem shapeStep_eqLastNil (gs : List (List Segment)) (s : Segment)
    (last_contour : List Segment) (h1 : gs.getLast? = some last_contour)
    (h2 : last_contour.getLast? = none) :
    shapeStep gs s = gs.dropLast ++ [last_contour ++ [s]] := by
  unfold shapeStep
  simp only [h1, h2]

theorem shapeStep_eqTrue (gs : List (List Segment)) (s : Segment)
    (last_contour : List Segment) (s0 : Segment)
    (h1 : gs.getLast? = some last_contour) (h2 : last_contour.getLast? = some s0)
    (h3 : s0.endP.sq_dist s.start < EPSILON) :
    shapeStep gs s = gs.dropLast ++ [last_contour ++ [s]] := by
  unfold shapeStep
  simp only [h1, h2]
  rw [if_pos h3]

theorem shapeStep_eqFalse (gs : List (List Segment)) (s : Segment)
    (last_contour : List Segment) (s0 : Segment)
    (h1 : gs.getLast? = some last_contour) (h2 : last_contour.getLast? = some s0)
    (h3 : ¬s0.endP.sq_dist s.start < EPSILON) :
    shapeStep gs s = gs ++ [[s]] := by
  unfold shapeStep
  simp only [h1, h2]
  rw [if_neg h3]

theorem contourStep_flatten (gs : List (List Segment)) (s : Segment) :
    (contourStep gs s).flatten = gs.flatten ++ [s] := by
  rcases h1 : gs.getLast? with _ | last_edge
  · rw [contourStep_eqNil gs s h1]
    simp
  · have hgs : gs = gs.dropLast ++ [last_edge] := eq_dropLast_concat h1
    rcases h2 : last_edge.getLast? with _ | last_segment
    · rw [contourStep_eqLastNil gs s last_edge h1 h2]
      conv_rhs => rw [hgs]
      simp
    · by_cases h3 : Edge.is_continous last_segment s
      · rw [contourStep_eqTrue gs s last_edge last_segment h1 h2 h3]
        conv_rhs => rw [hgs]
        simp
      · rw [contourStep_eqFalse gs s last_edge last_segment h1 h2 h3]
        simp

theorem shapeStep_flatten (gs : List (List Segment)) (s : Segment) :
    (shapeStep gs s).flatten = gs.flatten ++ [s] := by
  rcases h1 : gs.getLast? with _ | last_contour
  · rw [shapeStep_eqNil gs s h1]
    simp
  · have hgs : gs = gs.dropLast ++ [last_contour] := eq_dropLast_concat h1
    rcases h2 : last_contour.getLast? with _ | s0
    · rw [shapeStep_eqLastNil gs s last_contour h1 h2]
      conv_rhs => rw [hgs]
      simp
    · by_cases h3 : s0.endP.sq_dist s.start < EPSILON
      · rw [shapeStep_eqTrue gs s last_contour s0 h1 h2 h3]
        conv_rhs => rw [hgs]
        simp
      · rw [shapeStep_eqFalse gs s last_contour s0 h1 h2 h3]
        simp

theorem foldl_flatten_eq (step : List (List Segment) → Segment → List (List Segment))
    (hstep : ∀ gs s, (step gs s).flatten = gs.flatten ++ [s]) :
    ∀ (l : List Segment) (acc : List (List Segment)),
      (l.foldl step acc).flatten = acc.flatten ++ l := by
  intro l
  induction l with
  | nil => intro acc; simp
  | cons s rest ih =>
    intro acc
    rw [List.foldl_cons, ih, hstep]
    simp

theorem contourGroups_flatten (value : List Segment) :
    (value.foldl contourStep []).flatten = value := by
  rw [foldl_flatten_eq contourStep contourStep_flatten]
  simp

theorem shapeGroups_flatten (value : List Segment) :
    (shapeGroups value).flatten = value := by
  rw [shapeGroups, foldl_flatten_eq shapeStep shapeStep_flatten]
  simp

theorem contourFromSegments_flatten (value : List Segment) :
    (Contour.fromSegments value).flattenSegs = value := by
  unfold Contour.fromSegments Contour.flattenSegs
  rw [List.map_map]
  have h : Edge.segments ∘ (fun s => Edge.mk s) = id := rfl
  rw [h, List.map_id]
  exact contourGroups_flatten value

theorem shapeFromSegments_flatten (value : List Segment) :
    (Shape.fromSegments value).flattenSegs = value := by
  unfold Shape.fromSegments Shape.flattenSegs
  rw [List.map_map]
  have h : (shapeGroups value).map (Contour.flattenSegs ∘ Contour.fromSegments)
      = (shapeGroups value).map id :=
    List.map_congr_left (fun g _ => contourFromSegments_flatten g)
  rw [h, List.map_id]
  exact shapeGroups_flatten value

theorem contourStep_ne_nil (gs : List (List Segment)) (s : Segment) :
    contourStep gs s ≠ [] := by
  rcases h1 : gs.getLast? with _ | last_edge
  · rw [contourStep_eqNil gs s h1]; simp
  · rcases h2 : last_edge.getLast? with _ | last_segment
    · rw [contourStep_eqLastNil gs s last_edge h1 h2]; simp
    · by_cases h3 : Edge.is_continous last_segment s
      · rw [contourStep_eqTrue gs s last_edge last_segment h1 h2 h3]; simp
      · rw [contourStep_eqFalse gs s last_edge last_segment h1 h2 h3]; simp

theorem shapeStep_ne_nil (gs : List (List Segment)) (s : Segment) :
    shapeStep gs s ≠ [] := by
  rcases h1 : gs.getLast? with _ | last_contour
  · rw [shapeStep_eqNil gs s h1]; simp
  · rcases h2 : last_contour.getLast? with _ | s0
    · rw [shapeStep_eqLastNil gs s last_contour h1 h2]; simp
    · by_cases h3 : s0.endP.sq_dist s.start < EPSILON
      · rw [shapeStep_eqTrue gs s last_contour s0 h1 h2 h3]; simp
      · rw [shapeStep_eqFalse gs s last_contour s0 h1 h2 h3]; simp

theorem contourStep_mem (gs : List (List Segment)) (s : Segment) (g : List Segment)
    (hg : g ∈ contourStep gs s) : g ∈ gs ∨ ∃ l t, g = l ++ [t] := by
  rcases h1 : gs.getLast? with _ | last_edge
  · rw [contourStep_eqNil gs s h1] at hg
    rcases List.mem_append.1 hg with h | h
    · exact Or.inl h
    · exact Or.inr ⟨[], s, by simpa using h⟩
  · rcases h2 : last_edge.getLast? with _ | last_segment
    · rw [contourStep_eqLastNil gs s last_edge h1 h2] at hg
      rcases List.mem_append.1 hg with h | h
      · exact Or.inl (List.dropLast_subset _ h)
      · exact Or.inr ⟨last_edge, s, by simpa using h⟩
    · by_cases h3 : Edge.is_continous last_segment s
      · rw [contourStep_eqTrue gs s last_edge last_segment h1 h2 h3] at hg
        rcases List.mem_append.1 hg with h | h
        · exact Or.inl (List.dropLast_subset _ h)
        · exact Or.inr ⟨last_edge, s, by simpa using h⟩
      · rw [contourStep_eqFalse gs s last_edge last_segment h1 h2 h3] at hg
        rcases List.mem_append.1 hg with h | h
        · exact Or.inl h
        · exact Or.inr ⟨[], s, by simpa using h⟩

theorem shapeStep_mem (gs : List (List Segment)) (s : Segment) (g : List Segment)
    (hg : g ∈ shapeStep gs s) : g ∈ gs ∨ ∃ l t, g = l ++ [t] := by
  rcases h1 : gs.getLast? with _ | last_contour
  · rw [shapeStep_eqNil gs s h1] at hg
    rcases List.mem_append.1 hg with h | h
    · exact Or.inl h
    · exact Or.inr ⟨[], s, by simpa using h⟩
  · rcases h2 : last_contour.getLast? with _ | s0
    · rw [shapeStep_eqLastNil gs s last_contour h1 h2] at hg
      rcases List.mem_append.1 hg with h | h
      · exact Or.inl (List.dropLast_subset _ h)
      · exact Or.inr ⟨last_contour, s, by simpa using h⟩
    · by_cases h3 : s0.endP.sq_dist s.start < EPSILON
      · rw [shapeStep_eqTrue gs s last_contour s0 h1 h2 h3] at hg
        rcases List.mem_append.1 hg with h | h
        · exact Or.inl (List.dropLast_subset _ h)
        · exact Or.inr ⟨last_contour, s, by simpa using h⟩
      · rw [shapeStep_eqFalse gs s last_contour s0 h1 h2 h3] at hg
        rcases List.mem_append.1 hg with h | h
        · exact Or.inl h
        · exact Or.inr ⟨[], s, by simpa using h⟩

theorem foldl_ne_nil (step : List (List Segment) → Segment → List (List Segment))
    (h : ∀ gs s, step gs s ≠ []) :
    ∀ (l : List Segment) (acc : List (List Segment)),
      acc ≠ [] ∨ l ≠ [] → l.foldl step acc ≠ [] := by
  intro l
  induction l with
  | nil =>
    intro acc hacc
    rcases hacc with h1 | h1
    · simpa using h1
    · exact absurd rfl h1
  | cons s rest ih =>
    intro acc _
    rw [List.foldl_cons]
    exact ih (step acc s) (Or.inl (h acc s))

theorem foldl_mem_ne_nil (step : List (List Segment) → Segment → List (List Segment))
    (h : ∀ gs s g, g ∈ step gs s → g ∈ gs ∨ ∃ l t, g = l ++ [t]) :
    ∀ (l : List Segment) (acc : List (List Segment)),
      (∀ g ∈ acc, g ≠ []) → ∀ g ∈ l.foldl step acc, g ≠ [] := by
  intro l
  induction l with
  | nil => intro acc hacc; simpa using hacc
  | cons s rest ih =>
    intro acc hacc g hg
    rw [List.foldl_cons] at hg
    refine ih (step acc s) ?_ g hg
    intro g' hg'
    rcases h acc s g' hg' with h1 | ⟨l', t, rfl⟩
    · exact hacc g' h1
    · simp

theorem head?_flatten_of_ne_nil {α : Type} (gs : List (List α)) (h : ∀ g ∈ gs, g ≠ []) :
    gs.flatten.head? = gs.head?.bind List.head? := by
  cases gs with
  | nil => simp
  | cons g rest =>
    have hg : g ≠ [] := h g (List.mem_cons_self g rest)
    cases g with
    | nil => exact absurd rfl hg
    | cons a as => simp

theorem getLast?_flatten_of_ne_nil {α : Type} (gs : List (List α))
    (h : ∀ g ∈ gs, g ≠ []) :
    gs.flatten.getLast? = gs.getLast?.bind List.getLast? := by
  induction gs using List.reverseRecOn with
  | nil => simp
  | append_singleton as g _ =>
    have hg : g ≠ [] := h g (by simp)
    simp only [List.flatten_append, List.flatten_cons, List.flatten_nil, List.append_nil,
      List.getLast?_concat, Option.some_bind]
    exact List.getLast?_append_of_ne_nil _ hg

theorem minByAbs_isSome {l : List ℝ} (h : l ≠ []) : (minByAbs l).isSome = true := by
  cases l with
  | nil => exact absurd rfl h
  | cons x xs => rfl

/-! ### Claim theorems -/

/-- C2: for every input list of segments, concatenating every contour's
every edge's every segment of the assembled `Shape`, in order, reproduces
the original input segment list exactly — contour/edge assembly is an
order-preserving partition of its input. -/
theorem assembly_partition (segs : List Segment) :
    (Shape.fromSegments segs).flattenSegs = segs :=
  shapeFromSegments_flatten segs

/-- C10: for every non-empty input segment list the assembler produces at
least one contour, every produced contour contains at least one edge, every
produced edge contains at least one segment, and consequently the
`min_by` minimum inside `Edge::sdistance` exists on assembler output, so its
`unwrap` cannot panic. -/
theorem assembler_output_nonempty (segs : List Segment) (hne : segs ≠ []) :
    (Shape.fromSegments segs).contours ≠ [] ∧
      ∀ c ∈ (Shape.fromSegments segs).contours, c.edges ≠ [] ∧
        ∀ e ∈ c.edges, e.segments ≠ [] ∧
          ∀ p : Vector, (e.sdistanceMin p).isSome = true := by
  constructor
  · unfold Shape.fromSegments
    intro hmap
    have hgroups : shapeGroups segs ≠ [] := by
      rw [shapeGroups]
      exact foldl_ne_nil shapeStep shapeStep_ne_nil segs [] (Or.inr hne)
    have : shapeGroups segs = [] := by simpa using hmap
    exact hgroups this
  · intro c hc
    unfold Shape.fromSegments at hc
    simp only [List.mem_map] at hc
    obtain ⟨g, hgmem, rfl⟩ := hc
    have hgne : g ≠ [] := by
      rw [shapeGroups] at hgmem
      exact foldl_mem_ne_nil shapeStep shapeStep_mem segs [] (by simp) g hgmem
    constructor
    · unfold Contour.fromSegments
      intro hmap
      have hgroups : g.foldl contourStep [] ≠ [] :=
        foldl_ne_nil contourStep contourStep_ne_nil g [] (Or.inr hgne)
      have : g.foldl contourStep [] = [] := by simpa using hmap
      exact hgroups this
    · intro e he
      unfold Contour.fromSegments at he
      simp only [List.mem_map] at he
      obtain ⟨g', hg'mem, rfl⟩ := he
      have hg'ne : g' ≠ [] :=
        foldl_mem_ne_nil contourStep contourStep_mem g [] (by simp) g' hg'mem
      refine ⟨hg'ne, ?_⟩
      intro p
      rw [Edge.sdistanceMin]
      apply minByAbs_isSome
      intro hmapnil
      exact hg'ne (by simpa using hmapnil)

/-- Witness for `assembler_output_nonempty` at the one-segment input
`[Line((0,0),(1,0))]`. -/
theorem assembler_output_nonempty_witness :
    (([Segment.LINE ⟨⟨0, 0⟩, ⟨1, 0⟩⟩] : List Segment) ≠ []) ∧
      (Shape.fromSegments [Segment.LINE ⟨⟨0, 0⟩, ⟨1, 0⟩⟩]).contours ≠ [] :=
  ⟨by simp, (assembler_output_nonempty [Segment.LINE ⟨⟨0, 0⟩, ⟨1, 0⟩⟩] (by simp)).1⟩

/-- C3 counterexample: the assembler does not enforce closure.  The single
open segment `Line((0,0),(1,0))` is assembled into one contour whose first
start is at squared distance `1 ≥ EPSILON` from its last end, so the
produced contour is not closed. -/
theorem open_input_contour_not_closed :
    (Shape.fromSegments [Segment.LINE ⟨⟨0, 0⟩, ⟨1, 0⟩⟩]).contours
        = [Contour.fromSegments [Segment.LINE ⟨⟨0, 0⟩, ⟨1, 0⟩⟩]] ∧
      ¬(Contour.fromSegments [Segment.LINE ⟨⟨0, 0⟩, ⟨1, 0⟩⟩]).isClosed := by
  constructor
  · rfl
  · intro hcl
    have hedges : (Contour.fromSegments [Segment.LINE ⟨⟨0, 0⟩, ⟨1, 0⟩⟩]).edges
        = [⟨[Segment.LINE ⟨⟨0, 0⟩, ⟨1, 0⟩⟩]⟩] := rfl
    have h := hcl ⟨[Segment.LINE ⟨⟨0, 0⟩, ⟨1, 0⟩⟩]⟩ (by rw [hedges]; rfl)
      (Segment.LINE ⟨⟨0, 0⟩, ⟨1, 0⟩⟩) rfl
      ⟨[Segment.LINE ⟨⟨0, 0⟩, ⟨1, 0⟩⟩]⟩ (by rw [hedges]; rfl)
      (Segment.LINE ⟨⟨0, 0⟩, ⟨1, 0⟩⟩) rfl
    rw [EPSILON_eq] at h
    simp only [Segment.start, Segment.endP, Vector.sq_dist] at h
    norm_num at h

/-- C3 (amended): whenever every maximal chained run produced by the
contour-grouping stage is itself closed — in particular for any font input
satisfying the §4.4 input contract — every contour of the assembled shape
is closed: the start of the first segment of its first edge is within
`EPSILON` of the end of the last segment of its last edge. -/
theorem contours_closed_of_closed_runs (segs : List Segment)
    (h : ∀ g ∈ shapeGroups segs, closedRun g) :
    ∀ c ∈ (Shape.fromSegments segs).contours, c.isClosed := by
  intro c hc
  unfold Shape.fromSegments at hc
  simp only [List.mem_map] at hc
  obtain ⟨g, hgmem, rfl⟩ := hc
  have hclosed := h g hgmem
  intro e0 he0 s0 hs0 e1 he1 s1 hs1
  have hedges : (Contour.fromSegments g).edges
      = (g.foldl contourStep []).map (fun s => Edge.mk s) := rfl
  have hne : ∀ g' ∈ g.foldl contourStep [], g' ≠ [] :=
    foldl_mem_ne_nil contourStep contourStep_mem g [] (by simp)
  have hflat : (g.foldl contourStep []).flatten = g := contourGroups_flatten g
  -- first segment of first edge is the head of the flattened run
  rw [hedges, List.head?_map] at he0
  rw [Option.mem_def, Option.map_eq_some'] at he0
  obtain ⟨g0, hg0, rfl⟩ := he0
  have hhead : g.head? = some s0 := by
    rw [← hflat, head?_flatten_of_ne_nil _ hne, hg0]
    simpa using hs0
  -- last segment of last edge is the last of the flattened run
  rw [hedges, List.getLast?_map] at he1
  rw [Option.mem_def, Option.map_eq_some'] at he1
  obtain ⟨g1, hg1, rfl⟩ := he1
  have hlast : g.getLast? = some s1 := by
    rw [← hflat, getLast?_flatten_of_ne_nil _ hne, hg1]
    simpa using hs1
  exact hclosed s0 hhead s1 hlast

/-- Witness for `contours_closed_of_closed_runs` at the closed one-segment
input `[Line((0,0),(0,0))]`. -/
theorem contours_closed_witness :
    (∀ g ∈ shapeGroups [Segment.LINE ⟨⟨0, 0⟩, ⟨0, 0⟩⟩], closedRun g) ∧
      ∀ c ∈ (Shape.fromSegments [Segment.LINE ⟨⟨0, 0⟩, ⟨0, 0⟩⟩]).contours, c.isClosed := by
  have h : ∀ g ∈ shapeGroups [Segment.LINE ⟨⟨0, 0⟩, ⟨0, 0⟩⟩], closedRun g := by
    intro g hg
    have hgr : shapeGroups [Segment.LINE ⟨⟨0, 0⟩, ⟨0, 0⟩⟩]
        = [[Segment.LINE ⟨⟨0, 0⟩, ⟨0, 0⟩⟩]] := rfl
    rw [hgr] at hg
    simp only [List.mem_singleton] at hg
    subst hg
    intro s0 hs0 s1 hs1
    simp only [List.head?_cons, Option.mem_def, Option.some.injEq] at hs0
    simp only [List.getLast?_singleton, Option.mem_def, Option.some.injEq] at hs1
    subst hs0
    subst hs1
    rw [EPSILON_eq]
    simp only [Segment.start, Segment.endP, Vector.sq_dist]
    norm_num
  exact ⟨h, contours_closed_of_closed_runs _ h⟩

/-- The all-zero quintic: its derivative chain degrades to the quadratic
identity case `0 = 0`, which reports `None`. -/
theorem solve_quintic_zero : solve_quintic 0 0 0 0 0 0 = none := by
  have habs : |(0 : ℝ)| < EPSILON := by
    rw [EPSILON_eq]; norm_num
  have hquad : solve_quadratic ((0 : ℝ) * 3) ((0 : ℝ) * 2) 0 = none := by
    unfold solve_quadratic
    rw [if_pos (by simpa using habs), if_pos (by simpa using habs),
      if_pos (by simpa using habs)]
  have hcubic : solve_cubic ((0 : ℝ) * 4) ((0 : ℝ) * 3) ((0 : ℝ) * 2) 0 = none := by
    unfold solve_cubic
    rw [if_pos (by simpa using habs)]
    exact hquad
  have hquart : solve_quartic ((0 : ℝ) * 5) ((0 : ℝ) * 4) ((0 : ℝ) * 3) ((0 : ℝ) * 2) 0
      = none := by
    unfold solve_quartic
    rw [if_pos (by simpa using habs)]
    exact hcubic
  unfold solve_quintic
  rw [hquart]

/-- C4 counterexample: the quintic solver does not degrade to the quartic
solver on the remaining coefficients.  With `a = 1e-16` (below `EPSILON`),
`solve_quintic(a, 0, 0, 0, 0, 1)` reports `None` (its derivative chain hits
the quadratic identity case), while `solve_quartic(0, 0, 0, 0, 1)` returns
the empty root list `Some []`. -/
theorem quintic_no_degradation :
    |(1 / 10 ^ 16 : ℝ)| < EPSILON ∧
      solve_quintic (1 / 10 ^ 16) 0 0 0 0 1 ≠ solve_quartic 0 0 0 0 1 := by
  have habs0 : |(0 : ℝ)| < EPSILON := by rw [EPSILON_eq]; norm_num
  have h1 : solve_quintic (1 / 10 ^ 16 : ℝ) 0 0 0 0 1 = none := by
    have hquad : solve_quadratic ((0 : ℝ) * 3) ((0 : ℝ) * 2) 0 = none := by
      unfold solve_quadratic
      rw [if_pos (by simpa using habs0), if_pos (by simpa using habs0),
        if_pos (by simpa using habs0)]
    have hcubic : solve_cubic ((0 : ℝ) * 4) ((0 : ℝ) * 3) ((0 : ℝ) * 2) 0 = none := by
      unfold solve_cubic
      rw [if_pos (by simpa using habs0)]
      exact hquad
    have hquart : solve_quartic ((1 / 10 ^ 16 : ℝ) * 5) ((0 : ℝ) * 4) ((0 : ℝ) * 3)
        ((0 : ℝ) * 2) 0 = none := by
      unfold solve_quartic
      rw [if_pos (by rw [EPSILON_eq, abs_of_pos (by positivity)]; norm_num)]
      exact hcubic
    unfold solve_quintic
    rw [hquart]
  have h2 : solve_quartic (0 : ℝ) 0 0 0 1 = some [] := by
    unfold solve_quartic
    rw [if_pos habs0]
    unfold solve_cubic
    rw [if_pos habs0]
    unfold solve_quadratic
    rw [if_pos habs0, if_pos habs0, if_neg (by rw [EPSILON_eq]; norm_num)]
  refine ⟨by rw [EPSILON_eq, abs_of_pos (by positivity)]; norm_num, ?_⟩
  rw [h1, h2]
  simp

/-- C4 (amended): the degradation cascade exists only from the quartic down:
`solve_quartic` with `|a| < EPSILON` returns exactly `solve_cubic` on the
remaining coefficients, and `solve_cubic` with `|a| < EPSILON` returns
exactly `solve_quadratic`; the quintic solver performs no such check — it
always solves the derivative quartic for critical points instead, and can
disagree with `solve_quartic(b, c, d, e, f)` when `|a| < EPSILON`. -/
theorem quartic_cubic_degradation :
    (∀ a b c d e : ℝ, |a| < EPSILON → solve_quartic a b c d e = solve_cubic b c d e) ∧
      (∀ a b c d : ℝ, |a| < EPSILON → solve_cubic a b c d = solve_quadratic b c d) := by
  constructor
  · intro a b c d e h
    unfold solve_quartic
    rw [if_pos h]
  · intro a b c d h
    unfold solve_cubic
    rw [if_pos h]

/-- Witness for `quartic_cubic_degradation` at `a = 0`. -/
theorem quartic_cubic_degradation_witness :
    (|(0 : ℝ)| < EPSILON) ∧ solve_quartic 0 1 2 3 4 = solve_cubic 1 2 3 4 ∧
      solve_cubic 0 1 2 3 = solve_quadratic 1 2 3 := by
  have h : |(0 : ℝ)| < EPSILON := by rw [EPSILON_eq]; norm_num
  exact ⟨h, quartic_cubic_degradation.1 0 1 2 3 4 h,
    quartic_cubic_degradation.2 0 1 2 3 h⟩

/-- C5 (amended): whenever the quintic solver reports `None` for the
squared-distance polynomial built inside `Bez3::sdistance` /
`Bez3::pseudo_sdistance`, both functions fall back to returning
`p.sq_dist(P1)` — the squared Euclidean distance to the first interior
control point — instead of panicking. -/
theorem quintic_none_fallback (b3 : Bez3) (p : Vector)
    (h : solve_quintic (b3.kcoeffs p).1 (b3.kcoeffs p).2.1 (b3.kcoeffs p).2.2.1
        (b3.kcoeffs p).2.2.2.1 (b3.kcoeffs p).2.2.2.2.1 (b3.kcoeffs p).2.2.2.2.2 = none) :
    b3.sdistance p = p.sq_dist b3.p1 ∧ b3.pseudo_sdistance p = p.sq_dist b3.p1 := by
  simp only [Bez3.kcoeffs] at h
  constructor
  · simp only [Bez3.sdistance]
    rw [h]
  · simp only [Bez3.pseudo_sdistance]
    rw [h]

/-- Witness for `quintic_none_fallback` at the degenerate cubic
`Bez3((1,0),(1,0),(1,0),(-1,0))` queried from `(3,0)`, whose quintic
coefficients all vanish. -/
theorem quintic_none_fallback_witness :
    (solve_quintic
        ((Bez3.mk ⟨1, 0⟩ ⟨1, 0⟩ ⟨1, 0⟩ ⟨-1, 0⟩).kcoeffs ⟨3, 0⟩).1
        ((Bez3.mk ⟨1, 0⟩ ⟨1, 0⟩ ⟨1, 0⟩ ⟨-1, 0⟩).kcoeffs ⟨3, 0⟩).2.1
        ((Bez3.mk ⟨1, 0⟩ ⟨1, 0⟩ ⟨1, 0⟩ ⟨-1, 0⟩).kcoeffs ⟨3, 0⟩).2.2.1
        ((Bez3.mk ⟨1, 0⟩ ⟨1, 0⟩ ⟨1, 0⟩ ⟨-1, 0⟩).kcoeffs ⟨3, 0⟩).2.2.2.1
        ((Bez3.mk ⟨1, 0⟩ ⟨1, 0⟩ ⟨1, 0⟩ ⟨-1, 0⟩).kcoeffs ⟨3, 0⟩).2.2.2.2.1
        ((Bez3.mk ⟨1, 0⟩ ⟨1, 0⟩ ⟨1, 0⟩ ⟨-1, 0⟩).kcoeffs ⟨3, 0⟩).2.2.2.2.2 = none) ∧
      Bez3.sdistance ⟨⟨1, 0⟩, ⟨1, 0⟩, ⟨1, 0⟩, ⟨-1, 0⟩⟩ ⟨3, 0⟩
        = (⟨3, 0⟩ : Vector).sq_dist ⟨1, 0⟩ := by
  have hk : (Bez3.mk ⟨1, 0⟩ ⟨1, 0⟩ ⟨1, 0⟩ ⟨-1, 0⟩).kcoeffs ⟨3, 0⟩
      = (0, 0, 0, 0, 0, 0) := by
    simp only [Bez3.kcoeffs, Vector.sub_def, Vector.add_def, Vector.hmul_def, Vector.dot]
    norm_num
  have h : solve_quintic
      ((Bez3.mk ⟨1, 0⟩ ⟨1, 0⟩ ⟨1, 0⟩ ⟨-1, 0⟩).kcoeffs ⟨3, 0⟩).1
      ((Bez3.mk ⟨1, 0⟩ ⟨1, 0⟩ ⟨1, 0⟩ ⟨-1, 0⟩).kcoeffs ⟨3, 0⟩).2.1
      ((Bez3.mk ⟨1, 0⟩ ⟨1, 0⟩ ⟨1, 0⟩ ⟨-1, 0⟩).kcoeffs ⟨3, 0⟩).2.2.1
      ((Bez3.mk ⟨1, 0⟩ ⟨1, 0⟩ ⟨1, 0⟩ ⟨-1, 0⟩).kcoeffs ⟨3, 0⟩).2.2.2.1
      ((Bez3.mk ⟨1, 0⟩ ⟨1, 0⟩ ⟨1, 0⟩ ⟨-1, 0⟩).kcoeffs ⟨3, 0⟩).2.2.2.2.1
      ((Bez3.mk ⟨1, 0⟩ ⟨1, 0⟩ ⟨1, 0⟩ ⟨-1, 0⟩).kcoeffs ⟨3, 0⟩).2.2.2.2.2 = none := by
    rw [hk]
    exact solve_quintic_zero
  exact ⟨h, (quintic_none_fallback _ _ h).1⟩

/-- C5 counterexample: the fallback value is the squared distance, not the
Euclidean distance.  At `Bez3((1,0),(1,0),(1,0),(-1,0))` queried from
`(3,0)` the solver reports `None` and `sdistance` returns `4`, while the
Euclidean distance from the query point to `P1 = (1,0)` is `2`. -/
theorem fallback_returns_squared_distance :
    Bez3.sdistance ⟨⟨1, 0⟩, ⟨1, 0⟩, ⟨1, 0⟩, ⟨-1, 0⟩⟩ ⟨3, 0⟩ = 4 ∧
      Real.sqrt ((⟨3, 0⟩ : Vector).sq_dist ⟨1, 0⟩) = 2 ∧ (4 : ℝ) ≠ 2 := by
  refine ⟨?_, ?_, by norm_num⟩
  · simp only [Bez3.sdistance, Vector.sub_def, Vector.add_def, Vector.hmul_def, Vector.dot]
    norm_num [solve_quintic_zero, Vector.sq_dist]
  · rw [show ((⟨3, 0⟩ : Vector).sq_dist ⟨1, 0⟩) = 2 ^ 2 by
      simp [Vector.sq_dist]; norm_num]
    exact Real.sqrt_sq (by norm_num)

/-- C1: the quintic coefficients of the spec disagree with the ones the code
computes, because the code's third control-point difference is
`p3 = P3 - 3 P2 + 3 P1 + P0` where the spec (and the power-basis form of the
cubic Bezier that the code's own point evaluation
`p3 t^3 + 3 p2 t^2 + 3 p1 t + P0` requires) has `- P0`.  At
`P0 = (1,0), P1 = P2 = P3 = (0,0)`, query `(0,0)`, the coefficient tuples
differ in `k1` and `k2`. -/
theorem quintic_coeffs_diverge_from_spec :
    Bez3.kcoeffs ⟨⟨1, 0⟩, ⟨0, 0⟩, ⟨0, 0⟩, ⟨0, 0⟩⟩ ⟨0, 0⟩ = (1, 5, 20, -8, 5, -1) ∧
      specQuinticCoeffs ⟨⟨1, 0⟩, ⟨0, 0⟩, ⟨0, 0⟩, ⟨0, 0⟩⟩ ⟨0, 0⟩ = (1, -5, 28, -8, 5, -1) ∧
      Bez3.kcoeffs ⟨⟨1, 0⟩, ⟨0, 0⟩, ⟨0, 0⟩, ⟨0, 0⟩⟩ ⟨0, 0⟩
        ≠ specQuinticCoeffs ⟨⟨1, 0⟩, ⟨0, 0⟩, ⟨0, 0⟩, ⟨0, 0⟩⟩ ⟨0, 0⟩ := by
  have h1 : Bez3.kcoeffs ⟨⟨1, 0⟩, ⟨0, 0⟩, ⟨0, 0⟩, ⟨0, 0⟩⟩ ⟨0, 0⟩
      = (1, 5, 20, -8, 5, -1) := by
    simp only [Bez3.kcoeffs, Vector.sub_def, Vector.add_def, Vector.hmul_def, Vector.dot]
    norm_num
  have h2 : specQuinticCoeffs ⟨⟨1, 0⟩, ⟨0, 0⟩, ⟨0, 0⟩, ⟨0, 0⟩⟩ ⟨0, 0⟩
      = (1, -5, 28, -8, 5, -1) := by
    simp only [specQuinticCoeffs, Vector.sub_def, Vector.add_def, Vector.hmul_def,
      Vector.dot]
    norm_num
  refine ⟨h1, h2, ?_⟩
  rw [h1, h2]
  norm_num [Prod.ext_iff]

/-- C6 counterexample: `Vector::norm` has no epsilon guard.  The vector
`(1e-20, 0)` has magnitude `1e-20 < EPSILON`, yet `norm` returns the unit
vector `(1, 0)`, not the zero vector. -/
theorem norm_small_vector_not_zero :
    (⟨1 / 10 ^ 20, 0⟩ : Vector).mag < EPSILON ∧
      (⟨1 / 10 ^ 20, 0⟩ : Vector).norm = ⟨1, 0⟩ ∧
      ((⟨1, 0⟩ : Vector) ≠ ⟨0, 0⟩) := by
  have hmag : (⟨1 / 10 ^ 20, 0⟩ : Vector).mag = 1 / 10 ^ 20 := by
    unfold Vector.mag
    rw [show ((1 / 10 ^ 20 : ℝ) * (1 / 10 ^ 20) + 0 * 0) = (1 / 10 ^ 20 : ℝ) ^ 2 by ring]
    exact Real.sqrt_sq (by positivity)
  refine ⟨?_, ?_, ?_⟩
  · rw [hmag, EPSILON_eq]
    norm_num
  · unfold Vector.norm
    rw [hmag]
    norm_num
  · simp only [ne_eq, Vector.mk.injEq, not_and]
    intro h
    norm_num at h

/-- C6 (amended): `norm` divides componentwise by the magnitude with no
special case whatsoever; consequently every vector of non-zero magnitude,
however small, is mapped to a unit vector, and the zero vector incurs a
division by zero (NaN components in IEEE arithmetic) instead of being
returned unchanged. -/
theorem norm_unit_of_mag_ne_zero (v : Vector) (h : v.mag ≠ 0) :
    v.norm = ⟨v.x / v.mag, v.y / v.mag⟩ ∧ v.norm.mag = 1 := by
  refine ⟨rfl, ?_⟩
  have hnn : (0 : ℝ) ≤ v.x * v.x + v.y * v.y :=
    add_nonneg (mul_self_nonneg _) (mul_self_nonneg _)
  have hsq : v.mag * v.mag = v.x * v.x + v.y * v.y := Real.mul_self_sqrt hnn
  have hinner : v.x / v.mag * (v.x / v.mag) + v.y / v.mag * (v.y / v.mag) = 1 := by
    field_simp
    linarith [hsq]
  show Real.sqrt (v.x / v.mag * (v.x / v.mag) + v.y / v.mag * (v.y / v.mag)) = 1
  rw [hinner]
  exact Real.sqrt_one

/-- Witness for `norm_unit_of_mag_ne_zero` at `(3, 4)`, of magnitude `5`. -/
theorem norm_unit_witness :
    ((⟨3, 4⟩ : Vector).mag ≠ 0) ∧ (⟨3, 4⟩ : Vector).norm.mag = 1 := by
  have hmag : (⟨3, 4⟩ : Vector).mag = 5 := by
    unfold Vector.mag
    rw [show ((3 : ℝ) * 3 + 4 * 4) = (5 : ℝ) ^ 2 by norm_num]
    exact Real.sqrt_sq (by norm_num)
  have h : (⟨3, 4⟩ : Vector).mag ≠ 0 := by
    rw [hmag]
    norm_num
  exact ⟨h, (norm_unit_of_mag_ne_zero ⟨3, 4⟩ h).2⟩

@[simp] theorem Segment.line_add (l : Line) (v : Vector) :
    (Segment.LINE l + v : Segment) = Segment.LINE ⟨l.p0 + v, l.p1 + v⟩ := rfl

@[simp] theorem Segment.line_div (l : Line) (r : ℝ) :
    (Segment.LINE l / r : Segment) = Segment.LINE ⟨l.p0 / r, l.p1 / r⟩ := rfl

/-- C7 counterexample: `ShapeBuilder::new` performs no minimum-length
filtering.  An outline containing the zero-length curve
`Line((0,0),(0,0))` (bounds `(0,0)-(1,1)`) produces a shape that still
contains the zero-length segment, whose endpoint separation is `0`, below
any positive threshold. -/
theorem degenerate_segment_not_filtered :
    (ShapeBuilder.new
        { bounds := { min := ⟨0, 0⟩, max := ⟨1, 1⟩ },
          curves := [OutlineCurve.line ⟨0, 0⟩ ⟨0, 0⟩] }).shape.flattenSegs
      = [Segment.LINE ⟨⟨0, 0⟩, ⟨0, 0⟩⟩] ∧
    (Segment.LINE ⟨⟨0, 0⟩, ⟨0, 0⟩⟩ : Segment).start.sq_dist
        (Segment.LINE ⟨⟨0, 0⟩, ⟨0, 0⟩⟩ : Segment).endP = 0 := by
  constructor
  · refine Eq.trans (shapeFromSegments_flatten _) ?_
    simp only [List.map_cons, List.map_nil, Segment.fromCurve, Segment.line_add,
      Segment.line_div, Vector.add_def, Vector.hdiv_def, Rect.height]
    norm_num
  · simp only [Segment.start, Segment.endP, Vector.sq_dist]
    norm_num

/-- C7 (amended): no filtering happens at all: `ShapeBuilder::new` hands
every outline curve, translated by `+ bounds.min` and scaled by
`1 / |bounds.height|`, straight to the contour assembler, degenerate
segments included. -/
theorem shape_builder_maps_all_curves (o : Outline) :
    (ShapeBuilder.new o).shape.flattenSegs
      = o.curves.map (fun c => (Segment.fromCurve c + o.bounds.min) / |o.bounds.height|) :=
  shapeFromSegments_flatten _

/-- C8: the normalization transform does not map control points into
`[0,1]`: the code adds `bounds.min` instead of subtracting it (and divides
both axes by `|height|`), contradicting its own doc comment
(src/font.rs:908-910).  For bounds `(10,10)-(11,11)` and the in-bounds curve
`Line((10,10),(11,11))` the produced segment is `Line((20,20),(21,21))`,
whose start coordinate `20` lies far outside `[0,1]`. -/
theorem normalization_outside_unit :
    (ShapeBuilder.new
        { bounds := { min := ⟨10, 10⟩, max := ⟨11, 11⟩ },
          curves := [OutlineCurve.line ⟨10, 10⟩ ⟨11, 11⟩] }).shape.flattenSegs
      = [Segment.LINE ⟨⟨20, 20⟩, ⟨21, 21⟩⟩] ∧
    ¬((Segment.LINE ⟨⟨20, 20⟩, ⟨21, 21⟩⟩ : Segment).start.x ≤ 1) := by
  constructor
  · refine Eq.trans (shapeFromSegments_flatten _) ?_
    simp only [List.map_cons, List.map_nil, Segment.fromCurve, Segment.line_add,
      Segment.line_div, Vector.add_def, Vector.hdiv_def, Rect.height]
    norm_num
  · simp only [Segment.start]
    norm_num

theorem abs_copysign (x y : ℝ) : |copysign x y| = |x| := by
  unfold copysign
  split_ifs with h
  · rw [abs_neg, abs_abs]
  · rw [abs_abs]

/-- C9: `Line::sdistance` behaves as specified: on the segment
`(0,0)-(2,0)` the midpoint `(1,0)` is at signed distance `0`, the point
`(1,1)` at `+1`, the point `(1,-1)` at `-1`; a degenerate segment
(`p0 == p1`) returns the point-to-point distance; and in general the
magnitude of the signed distance is the distance from the query point to
the point at the clamped projection parameter
`t = clamp(dot(p - p0, p1 - p0) / dot(p1 - p0, p1 - p0), 0, 1)`. -/
theorem line_sdistance_spec :
    Line.sdistance ⟨⟨0, 0⟩, ⟨2, 0⟩⟩ ⟨1, 0⟩ = 0 ∧
      Line.sdistance ⟨⟨0, 0⟩, ⟨2, 0⟩⟩ ⟨1, 1⟩ = 1 ∧
      Line.sdistance ⟨⟨0, 0⟩, ⟨2, 0⟩⟩ ⟨1, -1⟩ = -1 ∧
      (∀ (l : Line) (p : Vector), l.p1 = l.p0 →
        l.sdistance p = Real.sqrt (l.p1.sq_dist p)) ∧
      (∀ (l : Line) (p : Vector), l.p1 ≠ l.p0 →
        |l.sdistance p| = Real.sqrt
          ((l.p0 * (1 - clampR ((p - l.p0).dot (l.p1 - l.p0)
                / (l.p1 - l.p0).dot (l.p1 - l.p0)) 0 1)
            + l.p1 * clampR ((p - l.p0).dot (l.p1 - l.p0)
                / (l.p1 - l.p0).dot (l.p1 - l.p0)) 0 1).sq_dist p)) := by
  refine ⟨?_, ?_, ?_, ?_, ?_⟩
  · simp only [Line.sdistance]
    rw [if_neg (by simp)]
    simp only [Vector.sub_def, Vector.add_def, Vector.hmul_def, Vector.dot, Vector.sq_dist,
      Vector.cross, clampR, copysign]
    norm_num [min_def, max_def, Real.sqrt_zero]
  · simp only [Line.sdistance]
    rw [if_neg (by simp)]
    simp only [Vector.sub_def, Vector.add_def, Vector.hmul_def, Vector.dot, Vector.sq_dist,
      Vector.cross, clampR, copysign]
    norm_num [min_def, max_def, Real.sqrt_one]
  · simp only [Line.sdistance]
    rw [if_neg (by simp)]
    simp only [Vector.sub_def, Vector.add_def, Vector.hmul_def, Vector.dot, Vector.sq_dist,
      Vector.cross, clampR, copysign]
    norm_num [min_def, max_def, Real.sqrt_one]
  · intro l p hp
    simp only [Line.sdistance]
    rw [if_pos hp]
  · intro l p hp
    simp only [Line.sdistance]
    rw [if_neg hp, abs_copysign]
    exact abs_of_nonneg (Real.sqrt_nonneg _)

/-- Witness for `line_sdistance_spec`: the degenerate clause at the point
segment `(5,5)` queried from `(5,8)` (distance `3`), and the clamped
projection clause at `(0,0)-(2,0)` queried from `(1,1)` (distance `1`). -/
theorem line_sdistance_witness :
    ((⟨⟨5, 5⟩, ⟨5, 5⟩⟩ : Line).p1 = (⟨⟨5, 5⟩, ⟨5, 5⟩⟩ : Line).p0) ∧
      Line.sdistance ⟨⟨5, 5⟩, ⟨5, 5⟩⟩ ⟨5, 8⟩ = 3 ∧
      ((⟨⟨0, 0⟩, ⟨2, 0⟩⟩ : Line).p1 ≠ (⟨⟨0, 0⟩, ⟨2, 0⟩⟩ : Line).p0) ∧
      |Line.sdistance ⟨⟨0, 0⟩, ⟨2, 0⟩⟩ ⟨1, 1⟩| = 1 := by
  have h1 : (⟨⟨5, 5⟩, ⟨5, 5⟩⟩ : Line).p1 = (⟨⟨5, 5⟩, ⟨5, 5⟩⟩ : Line).p0 := rfl
  have h3 : (⟨⟨0, 0⟩, ⟨2, 0⟩⟩ : Line).p1 ≠ (⟨⟨0, 0⟩, ⟨2, 0⟩⟩ : Line).p0 := by simp
  refine ⟨h1, ?_, h3, ?_⟩
  · have h2 := line_sdistance_spec.2.2.2.1 ⟨⟨5, 5⟩, ⟨5, 5⟩⟩ ⟨5, 8⟩ h1
    rw [h2, show ((⟨5, 5⟩ : Vector).sq_dist ⟨5, 8⟩) = 3 ^ 2 by
      simp [Vector.sq_dist]; norm_num]
    exact Real.sqrt_sq (by norm_num)
  · have h4 := line_sdistance_spec.2.2.2.2 ⟨⟨0, 0⟩, ⟨2, 0⟩⟩ ⟨1, 1⟩ h3
    norm_num [clampR, Vector.sub_def, Vector.dot, Vector.hmul_def, Vector.add_def,
      Vector.sq_dist, min_def, max_def, Real.sqrt_one] at h4
    exact h4

end SwayFont
